import Mathlib

set_option autoImplicit false

/-!
Verification of the schedule-extraction and document-discovery pipeline of the
thistle-regatta-schedule application.  This file gives a shallow embedding of
the functions in `app/admin/routes.py` and `app/admin/ai_service.py`.  Calls
into the Python standard library and into external services (DNS resolution,
HTTP requests, the model provider, `json.loads`) are passed in as explicit
function parameters, so that every repository-owned branch is modelled
faithfully while the environment stays abstract.
-/

namespace RegattaPipeline

/-! ### Python string primitives -/

/-- The ASCII whitespace characters removed by Python `str.strip()`. -/
def pyIsSpace (c : Char) : Bool :=
  c = ' ' || c = '\t' || c = '\n' || c = '\r' || c = '\x0b' || c = '\x0c'

/-- Python `str.strip()` on a character list. -/
def pyStripL (l : List Char) : List Char :=
  ((l.dropWhile pyIsSpace).reverse.dropWhile pyIsSpace).reverse

/-- Python `str.strip()`. -/
def pyStrip (s : String) : String := ⟨pyStripL s.data⟩

/-- Python `s.split("\n")` on a character list. -/
def splitNl : List Char → List (List Char)
  | [] => [[]]
  | c :: cs =>
    if c = '\n' then [] :: splitNl cs
    else
      match splitNl cs with
      | [] => [[c]]
      | l :: ls => (c :: l) :: ls

/-- Python `"\n".join(...)` on character lists. -/
def joinNl : List (List Char) → List Char
  | [] => []
  | [l] => l
  | l :: l' :: ls => l ++ '\n' :: joinNl (l' :: ls)

theorem splitNl_ne_nil (l : List Char) : splitNl l ≠ [] := by
  cases l with
  | nil => simp [splitNl]
  | cons c cs =>
    simp only [splitNl]
    split
    · simp
    · split <;> simp

theorem splitNl_append_nl (as bs : List Char) :
    splitNl (as ++ '\n' :: bs) = splitNl as ++ splitNl bs := by
  induction as with
  | nil => simp [splitNl]
  | cons c cs ih =>
    by_cases hc : c = '\n'
    · subst hc
      simp [splitNl, ih]
    · cases h : splitNl cs with
      | nil => exact absurd h (splitNl_ne_nil cs)
      | cons l ls =>
        simp only [List.cons_append, splitNl, if_neg hc, h]
        rw [List.append_eq, ih, h]
        rfl

theorem splitNl_no_nl (l : List Char) (h : '\n' ∉ l) : splitNl l = [l] := by
  induction l with
  | nil => rfl
  | cons c cs ih =>
    have hc : ¬ c = '\n' := fun e => h (by simp [e])
    have hcs : '\n' ∉ cs := fun m => h (List.mem_cons_of_mem _ m)
    simp [splitNl, if_neg hc, ih hcs]

theorem joinNl_splitNl (l : List Char) : joinNl (splitNl l) = l := by
  induction l with
  | nil => rfl
  | cons c cs ih =>
    by_cases hc : c = '\n'
    · subst hc
      simp only [splitNl, if_pos rfl]
      cases h : splitNl cs with
      | nil => exact absurd h (splitNl_ne_nil cs)
      | cons x xs =>
        rw [h] at ih
        show '\n' :: joinNl (x :: xs) = '\n' :: cs
        rw [ih]
    · cases h : splitNl cs with
      | nil => exact absurd h (splitNl_ne_nil cs)
      | cons x xs =>
        rw [h] at ih
        simp only [splitNl, if_neg hc, h]
        cases xs with
        | nil =>
          show c :: x = c :: cs
          simp only [joinNl] at ih
          rw [ih]
        | cons y ys =>
          show (c :: x) ++ '\n' :: joinNl (y :: ys) = c :: cs
          simp only [joinNl] at ih
          simp [← ih]

theorem dropWhile_eq_self_of_head {α : Type} (p : α → Bool) (l : List α)
    (h : ∀ c, l.head? = some c → p c = false) : l.dropWhile p = l := by
  cases l with
  | nil => rfl
  | cons a t =>
    have := h a rfl
    simp [List.dropWhile_cons, this]

theorem pyStripL_eq_self (l : List Char)
    (h1 : ∀ c, l.head? = some c → pyIsSpace c = false)
    (h2 : ∀ c, l.getLast? = some c → pyIsSpace c = false) : pyStripL l = l := by
  unfold pyStripL
  rw [dropWhile_eq_self_of_head _ _ h1]
  rw [dropWhile_eq_self_of_head _ _ (fun c hc => h2 c (by rwa [List.head?_reverse] at hc))]
  exact l.reverse_reverse

/-! ### Fence stripping and JSON-response parsing (`app/admin/ai_service.py`) -/

/-- Fence stripping in `_parse_json_response` (`app/admin/ai_service.py`,
lines 152-156): strip the raw response; if it starts with a triple backtick,
drop the first line and every remaining line whose stripped content is exactly
a triple backtick, and rejoin with newlines.  The same logic appears inline in
`extract_regattas` (lines 127-134). -/
def stripFencesL (raw : List Char) : List Char :=
  let text := pyStripL raw
  if "```".data.isPrefixOf text then
    joinNl (((splitNl text).drop 1).filter (fun ln => !(pyStripL ln == "```".data)))
  else text

def stripFences (raw : String) : String := ⟨stripFencesL raw.data⟩

/-- JSON values as returned by Python `json.loads`.  (Number payloads are
modelled as integers; no claim inspects numeric values.) -/
inductive Json where
  | null
  | bool (b : Bool)
  | num (n : Int)
  | str (s : String)
  | arr (items : List Json)
  | obj (fields : List (String × Json))

/-- `_parse_json_response` (`app/admin/ai_service.py`, lines 150-169).
`loads` stands for the external `json.loads`; `none` models a
`json.JSONDecodeError`.  The raised `ValueError`s become `.error` values
carrying the exact user-facing messages. -/
def _parse_json_response (loads : String → Option Json) (raw : String) :
    Except String (List Json) :=
  let text := stripFences raw
  match loads text with
  | none => .error "Could not parse the AI response. Try again with clearer input."
  | some (Json.arr items) => .ok items
  | some _ => .error "Unexpected AI response format."

theorem filter_eq_self_of_forall {α : Type} (p : α → Bool) (l : List α)
    (h : ∀ a ∈ l, p a = true) : l.filter p = l := by
  induction l with
  | nil => rfl
  | cons a t ih =>
    rw [List.filter_cons, if_pos (h a (List.mem_cons_self a t))]
    rw [ih (fun x hx => h x (List.mem_cons_of_mem a hx))]

/-- C3: wrapping a JSON-array response body in a markdown code fence is
transparent to `_parse_json_response`.  For any response body `A` that is
already stripped, does not itself start with a triple backtick, and has no
line whose stripped content is a bare triple backtick (all of which hold for
any JSON array text, since raw newlines cannot occur inside JSON string
literals), the fenced response consisting of a leading fence line, the lines
of `A`, and a trailing fence-only line parses to exactly the same result as
`A` unwrapped, for every behaviour of `json.loads`. -/
theorem fence_roundtrip_parse (loads : String → Option Json) (tag : List Char) (A : String)
    (htag : '\n' ∉ tag)
    (hA1 : pyStripL A.data = A.data)
    (hA2 : ¬ "```".data.isPrefixOf A.data)
    (hA3 : ∀ ln ∈ splitNl A.data, pyStripL ln ≠ "```".data) :
    _parse_json_response loads ⟨"```".data ++ tag ++ '\n' :: A.data ++ '\n' :: "```".data⟩ =
      _parse_json_response loads A := by
  have hfence : "```".data = ['`', '`', '`'] := rfl
  have hWeq : "```".data ++ tag ++ '\n' :: A.data ++ '\n' :: "```".data
      = ("```".data ++ tag) ++ '\n' :: (A.data ++ '\n' :: "```".data) := by
    simp [List.append_assoc]
  have hstrip : pyStripL (("```".data ++ tag) ++ '\n' :: (A.data ++ '\n' :: "```".data))
      = ("```".data ++ tag) ++ '\n' :: (A.data ++ '\n' :: "```".data) := by
    apply pyStripL_eq_self
    · intro c hc
      rw [hfence] at hc
      simp only [List.cons_append, List.head?_cons, Option.some.injEq] at hc
      rw [← hc]; decide
    · intro c hc
      rw [List.getLast?_append_cons] at hc
      rw [show ('\n' :: (A.data ++ '\n' :: "```".data)) = ('\n' :: A.data) ++ '\n' :: "```".data
            by simp] at hc
      rw [List.getLast?_append_cons] at hc
      rw [show ('\n' :: "```".data).getLast? = some '`' from rfl] at hc
      cases hc
      decide
  have hpre : "```".data.isPrefixOf
      (("```".data ++ tag) ++ '\n' :: (A.data ++ '\n' :: "```".data)) = true := by
    rw [hfence]
    simp [List.isPrefixOf]
  have hsplit : splitNl (("```".data ++ tag) ++ '\n' :: (A.data ++ '\n' :: "```".data))
      = ("```".data ++ tag) :: (splitNl A.data ++ ["```".data]) := by
    have hnn : '\n' ∉ "```".data ++ tag := by
      intro hmem
      rcases List.mem_append.mp hmem with h | h
      · exact absurd h (by decide)
      · exact htag h
    rw [splitNl_append_nl, splitNl_append_nl]
    rw [splitNl_no_nl ("```".data ++ tag) hnn, splitNl_no_nl "```".data (by decide)]
    rfl
  have hB : stripFencesL ("```".data ++ tag ++ '\n' :: A.data ++ '\n' :: "```".data)
      = A.data := by
    rw [hWeq]
    simp only [stripFencesL]
    rw [hstrip, if_pos hpre, hsplit]
    rw [show (("```".data ++ tag) :: (splitNl A.data ++ ["```".data])).drop 1
          = splitNl A.data ++ ["```".data] from rfl]
    rw [List.filter_append]
    rw [show (["```".data].filter (fun ln => !(pyStripL ln == "```".data))) = [] from rfl]
    rw [filter_eq_self_of_forall _ _ (fun ln hln => by simpa using hA3 ln hln)]
    rw [List.append_nil, joinNl_splitNl]
  have hA : stripFencesL A.data = A.data := by
    simp only [stripFencesL]
    rw [hA1, if_neg hA2]
  have hsf : stripFences ⟨"```".data ++ tag ++ '\n' :: A.data ++ '\n' :: "```".data⟩
      = stripFences A := by
    show (⟨stripFencesL ("```".data ++ tag ++ '\n' :: A.data ++ '\n' :: "```".data)⟩ : String)
        = ⟨stripFencesL A.data⟩
    rw [hB, hA]
  unfold _parse_json_response
  rw [hsf]

/-- Witness for `fence_roundtrip_parse` at a concrete array text. -/
theorem fence_roundtrip_parse_witness :
    _parse_json_response (fun s => if s = "[1]" then some (Json.arr [Json.num 1]) else none)
        ⟨"```".data ++ "json".data ++ '\n' :: "[1]".data ++ '\n' :: "```".data⟩ =
      _parse_json_response (fun s => if s = "[1]" then some (Json.arr [Json.num 1]) else none)
        "[1]" :=
  fence_roundtrip_parse _ "json".data "[1]" (by decide) (by decide) (by decide) (by decide)

/-- C4: case analysis of `_parse_json_response` after fence stripping: a
response `json.loads` cannot parse fails with the user-facing "could not
parse the AI response" message; a parseable response whose top-level value is
not an array fails with the "unexpected response format" message; a top-level
JSON array is returned as-is. -/
theorem parse_json_response_cases (loads : String → Option Json) (raw : String) :
    (loads (stripFences raw) = none →
        _parse_json_response loads raw =
          .error "Could not parse the AI response. Try again with clearer input.") ∧
    (∀ v, loads (stripFences raw) = some v → (∀ items, v ≠ Json.arr items) →
        _parse_json_response loads raw = .error "Unexpected AI response format.") ∧
    (∀ items, loads (stripFences raw) = some (Json.arr items) →
        _parse_json_response loads raw = .ok items) := by
  refine ⟨?_, ?_, ?_⟩
  · intro h
    simp [_parse_json_response, h]
  · intro v hv hn
    cases v with
    | arr items => exact absurd rfl (hn items)
    | null => simp [_parse_json_response, hv]
    | bool b => simp [_parse_json_response, hv]
    | num n => simp [_parse_json_response, hv]
    | str s => simp [_parse_json_response, hv]
    | obj f => simp [_parse_json_response, hv]
  · intro items h
    simp [_parse_json_response, h]

/-- Witness for `parse_json_response_cases` on the three concrete outcomes. -/
theorem parse_json_response_cases_witness :
    _parse_json_response (fun _ => none) "not json" =
        .error "Could not parse the AI response. Try again with clearer input." ∧
    _parse_json_response (fun _ => some (Json.num 5)) "5" =
        .error "Unexpected AI response format." ∧
    _parse_json_response (fun s => if s = "[]" then some (Json.arr []) else none) "[]" =
        .ok [] :=
  ⟨(parse_json_response_cases _ "not json").1 rfl,
   (parse_json_response_cases _ "5").2.1 (Json.num 5) rfl (fun _ h => Json.noConfusion h),
   (parse_json_response_cases _ "[]").2.2 [] rfl⟩

/-! ### SSRF guard (`app/admin/routes.py`, lines 48-58) -/

/-- Classification flags of one resolved address, as computed by Python's
`ipaddress` module on a `getaddrinfo` result. -/
structure IpInfo where
  is_private : Bool
  is_loopback : Bool
  is_reserved : Bool

/-- `_is_private_ip` (`app/admin/routes.py`, lines 48-58).  `resolve` stands
for `socket.getaddrinfo` plus per-address `ipaddress.ip_address`
classification; a `none` result models any exception raised during
resolution, which the source catches and maps to `True` (fail closed). -/
def _is_private_ip (resolve : String → Option (List IpInfo)) (hostname : String) : Bool :=
  match resolve hostname with
  | none => true
  | some addrs => addrs.any (fun ip => ip.is_private || ip.is_loopback || ip.is_reserved)

/-! ### Model of `urllib.parse.urlparse` (Python standard library)

The source reads only `parsed.scheme`, `parsed.hostname` and `parsed.path`;
this model reproduces `urlparse` for those three fields on absolute
`scheme://netloc/path` URLs, scheme-less or netloc-less strings, and the
empty string. -/

structure UrlParts where
  scheme : String
  hostname : Option String
  path : String

def isSchemeChar (c : Char) : Bool := c.isAlphanum || c = '+' || c = '-' || c = '.'

/-- Split a character list at the first colon, if any. -/
def splitAtColon : List Char → Option (List Char × List Char)
  | [] => none
  | c :: cs =>
    if c = ':' then some ([], cs)
    else
      match splitAtColon cs with
      | none => none
      | some (a, b) => some (c :: a, b)

def validSchemeL : List Char → Bool
  | [] => false
  | c :: cs => c.isAlpha && cs.all isSchemeChar

/-- Take the netloc: everything up to the first '/', '?' or '#'. -/
def takeNetloc : List Char → List Char × List Char
  | [] => ([], [])
  | c :: cs =>
    if c = '/' || c = '?' || c = '#' then ([], c :: cs)
    else
      let (a, b) := takeNetloc cs
      (c :: a, b)

/-- Cut a path at the first '?' or '#'. -/
def takePath : List Char → List Char
  | [] => []
  | c :: cs => if c = '?' || c = '#' then [] else c :: takePath cs

/-- Hostname of a netloc: the part after the last '@' and before the first
':', lowercased; `none` when empty. -/
def hostnameOfNetloc (netloc : List Char) : Option String :=
  let afterUser := (netloc.reverse.takeWhile (fun c => !(c = '@'))).reverse
  let host := (afterUser.takeWhile (fun c => !(c = ':'))).map Char.toLower
  if host.isEmpty then none else some ⟨host⟩

def urlparseM (url : String) : UrlParts :=
  let l := url.data
  let (scheme, rest) :=
    match splitAtColon l with
    | some (s, r) => if validSchemeL s then (s.map Char.toLower, r) else (([] : List Char), l)
    | none => (([] : List Char), l)
  match rest with
  | '/' :: '/' :: r2 =>
    let (netloc, after) := takeNetloc r2
    { scheme := ⟨scheme⟩, hostname := hostnameOfNetloc netloc, path := ⟨takePath after⟩ }
  | _ => { scheme := ⟨scheme⟩, hostname := none, path := ⟨takePath rest⟩ }

/-- The validation prefix of `_fetch_url_content` (`app/admin/routes.py`,
lines 155-163) followed by the abstracted remainder of the function
(`requests.get` plus HTML flattening and truncation), supplied as `fetch`.
A `.ok` result means the outbound GET request for `url` was issued; every
guard rejection raises a `ValueError` before any request. -/
def _fetch_url_content (resolve : String → Option (List IpInfo)) (fetch : String → String)
    (url : String) : Except String String :=
  let parsed := urlparseM url
  if parsed.scheme = "" ∨ parsed.hostname.getD "" = "" then .error "Invalid URL."
  else if ¬ (parsed.scheme = "http" ∨ parsed.scheme = "https") then
    .error "Only HTTP and HTTPS URLs are supported."
  else if _is_private_ip resolve (parsed.hostname.getD "") then
    .error "URLs pointing to private networks are not allowed."
  else .ok (fetch url)

/-- C2: the SSRF guard classifies a hostname as unsafe exactly when
resolution raised or some resolved address is private, loopback, or reserved
(so it returns `false` only when resolution succeeded and every address is
clean), and whenever the guard classifies a URL's parsed hostname as unsafe,
the page fetcher rejects that URL with an error before issuing any request
-- with the private-network message when scheme and hostname are otherwise
acceptable. -/
theorem ssrf_guard_fail_closed (resolve : String → Option (List IpInfo)) (hostname : String) :
    (_is_private_ip resolve hostname = true ↔
      (resolve hostname = none ∨
        ∃ addrs, resolve hostname = some addrs ∧
          ∃ ip ∈ addrs, (ip.is_private || ip.is_loopback || ip.is_reserved) = true)) ∧
    (∀ fetch url, _is_private_ip resolve ((urlparseM url).hostname.getD "") = true →
      ∀ ok, _fetch_url_content resolve fetch url ≠ .ok ok) ∧
    (∀ fetch url, ((urlparseM url).scheme = "http" ∨ (urlparseM url).scheme = "https") →
      (urlparseM url).hostname.getD "" ≠ "" →
      _is_private_ip resolve ((urlparseM url).hostname.getD "") = true →
      _fetch_url_content resolve fetch url =
        .error "URLs pointing to private networks are not allowed.") := by
  refine ⟨?_, ?_, ?_⟩
  · unfold _is_private_ip
    cases h : resolve hostname with
    | none => simp
    | some addrs => simp [List.any_eq_true]
  · intro fetch url hguard ok
    by_cases h1 : (urlparseM url).scheme = "" ∨ (urlparseM url).hostname.getD "" = ""
    · simp [_fetch_url_content, h1]
    · by_cases h2 : ¬ ((urlparseM url).scheme = "http" ∨ (urlparseM url).scheme = "https")
      · simp [_fetch_url_content, h1, h2]
      · simp [_fetch_url_content, h1, h2, hguard]
  · intro fetch url hs hh hguard
    have h1 : ¬ ((urlparseM url).scheme = "" ∨ (urlparseM url).hostname.getD "" = "") := by
      rintro (h | h)
      · rcases hs with hs | hs <;> rw [hs] at h <;> exact absurd h (by decide)
      · exact hh h
    simp [_fetch_url_content, h1, hs, hguard]

/-- Witness for `ssrf_guard_fail_closed`: an unresolvable hostname is
classified unsafe and its URL is rejected before any request. -/
theorem ssrf_guard_fail_closed_witness :
    _is_private_ip (fun _ => none) "internal.host" = true ∧
    _fetch_url_content (fun _ => none) (fun _ => "page") "http://internal.host/x" =
      .error "URLs pointing to private networks are not allowed." :=
  ⟨(ssrf_guard_fail_closed (fun _ => none) "internal.host").1.mpr (Or.inl rfl),
   (ssrf_guard_fail_closed (fun _ => none) "internal.host").2.2 (fun _ => "page")
      "http://internal.host/x" (Or.inl (by decide)) (by decide) rfl⟩

/-! ### Known-platform URL resolver (`app/admin/routes.py`, lines 110-117) -/

/-- Python `needle in haystack` substring membership on character lists. -/
def containsSubL (needle : List Char) : List Char → Bool
  | [] => needle.isEmpty
  | c :: cs => needle.isPrefixOf (c :: cs) || containsSubL needle cs

/-- The regex match `re.match(r"^/regatta/([A-Za-z0-9]+)", path)`: the
captured group is the maximal nonempty alphanumeric run following the
literal prefix `/regatta/`. -/
def regattaPathId (path : List Char) : Option String :=
  if "/regatta/".data.isPrefixOf path then
    let idc := (path.drop 9).takeWhile Char.isAlphanum
    if idc.isEmpty then none else some ⟨idc⟩
  else none

/-- `_parse_clubspot_regatta_id` (`app/admin/routes.py`, lines 110-117):
extract the regatta id from a clubspot URL, or `None`.  Note that the source
tests `"theclubspot.com" in (parsed.hostname or "")` -- a substring test on
the hostname, not an equality or suffix test. -/
def _parse_clubspot_regatta_id (url : String) : Option String :=
  let parsed := urlparseM url
  if containsSubL "theclubspot.com".data (parsed.hostname.getD "").data then
    regattaPathId parsed.path.data
  else none

theorem takeWhile_all_append (p : Char → Bool) (xs ys : List Char)
    (hx : ∀ c ∈ xs, p c = true) (hy : ∀ c, ys.head? = some c → p c = false) :
    (xs ++ ys).takeWhile p = xs := by
  induction xs with
  | nil =>
    cases ys with
    | nil => rfl
    | cons y t =>
      have := hy y rfl
      simp [List.takeWhile_cons, this]
  | cons x t ih =>
    have hpx := hx x (List.mem_cons_self x t)
    simp [List.takeWhile_cons, hpx, ih (fun c hc => hx c (List.mem_cons_of_mem x hc))]

theorem head?_dropWhile_false (p : Char → Bool) (l : List Char) :
    ∀ c, (l.dropWhile p).head? = some c → p c = false := by
  induction l with
  | nil => intro c h; cases h
  | cons a t ih =>
    intro c h
    by_cases hpa : p a = true
    · rw [List.dropWhile_cons, if_pos hpa] at h
      exact ih c h
    · rw [List.dropWhile_cons, if_neg hpa] at h
      rw [List.head?_cons, Option.some.injEq] at h
      rw [← h]
      exact Bool.not_eq_true _ ▸ hpa

/-- C6 (amended): full characterization of the resolver.  It returns an id
exactly when the parsed hostname contains `theclubspot.com` as a substring
(hence also for unrelated hosts that merely embed that string) and the path
decomposes as `/regatta/` followed by the returned id -- a maximal nonempty
alphanumeric run -- and arbitrary remaining path.  In every other case
(other paths on such a host, hosts without the substring, and the empty or
unparsable URL, whose hostname parses to nothing) it returns nothing. -/
theorem clubspot_resolver_amended (url : String) (i : String) :
    _parse_clubspot_regatta_id url = some i ↔
      (containsSubL "theclubspot.com".data ((urlparseM url).hostname.getD "").data = true ∧
        i ≠ "" ∧ (∀ c ∈ i.data, c.isAlphanum = true) ∧
        ∃ rest, (urlparseM url).path.data = "/regatta/".data ++ i.data ++ rest ∧
          ∀ c, rest.head? = some c → c.isAlphanum = false) := by
  unfold _parse_clubspot_regatta_id
  constructor
  · intro h
    by_cases hc : containsSubL "theclubspot.com".data ((urlparseM url).hostname.getD "").data = true
    · rw [if_pos hc] at h
      refine ⟨hc, ?_⟩
      unfold regattaPathId at h
      by_cases hp : "/regatta/".data.isPrefixOf (urlparseM url).path.data = true
      · rw [if_pos hp] at h
        rcases (List.isPrefixOf_iff_prefix.mp hp) with ⟨tail, htail⟩
        have hdrop : (urlparseM url).path.data.drop 9 = tail := by
          rw [← htail]
          exact List.drop_left "/regatta/".data tail
        rw [hdrop] at h
        by_cases hz : (tail.takeWhile Char.isAlphanum).isEmpty = true
        · rw [if_pos hz] at h
          cases h
        · rw [if_neg hz] at h
          rw [Option.some.injEq] at h
          have hi : i.data = tail.takeWhile Char.isAlphanum := by rw [← h]
          refine ⟨?_, ?_, ?_⟩
          · intro he
            rw [he] at hi
            rw [List.isEmpty_iff] at hz
            exact hz hi.symm
          · intro c hcmem
            rw [hi] at hcmem
            exact List.mem_takeWhile_imp hcmem
          · refine ⟨tail.dropWhile Char.isAlphanum, ?_, ?_⟩
            · rw [← htail, hi, List.append_assoc, List.takeWhile_append_dropWhile]
            · exact head?_dropWhile_false Char.isAlphanum tail
      · rw [if_neg hp] at h
        cases h
    · rw [if_neg hc] at h
      cases h
  · rintro ⟨hc, hne, hall, rest, hdecomp, hrest⟩
    rw [if_pos hc]
    unfold regattaPathId
    have hp : "/regatta/".data.isPrefixOf (urlparseM url).path.data = true := by
      rw [List.isPrefixOf_iff_prefix, hdecomp]
      exact ⟨i.data ++ rest, by simp⟩
    rw [if_pos hp]
    have hdrop : (urlparseM url).path.data.drop 9 = i.data ++ rest := by
      rw [hdecomp]
      exact List.drop_left "/regatta/".data (i.data ++ rest)
    rw [hdrop, takeWhile_all_append Char.isAlphanum i.data rest hall hrest]
    have hne' : i.data.isEmpty = false := by
      cases hd : i.data with
      | nil => exact absurd (congrArg String.mk hd) hne
      | cons a t => rfl
    show (if i.data.isEmpty = true then none else some (⟨i.data⟩ : String)) = some i
    rw [hne', if_neg Bool.false_ne_true]

/-- C6 counterexample: the hostname check is a substring test, so a URL on
`theclubspot.com.evil.example` -- a host that is neither the platform's
domain nor one of its subdomains -- still resolves to an id, contradicting
the claim that only URLs whose host belongs to the platform resolve. -/
theorem clubspot_resolver_counterexample :
    _parse_clubspot_regatta_id "https://theclubspot.com.evil.example/regatta/AbC123" =
        some "AbC123" ∧
    (urlparseM "https://theclubspot.com.evil.example/regatta/AbC123").hostname =
        some "theclubspot.com.evil.example" ∧
    "theclubspot.com.evil.example" ≠ "theclubspot.com" ∧
    ".theclubspot.com".data.isSuffixOf "theclubspot.com.evil.example".data = false := by
  refine ⟨?_, ?_, ?_, ?_⟩ <;> decide

/-! ### Dates (`datetime.date`) and the duplicate detector -/

/-- A calendar date as carried by `datetime.date`. -/
structure PyDate where
  year : Nat
  month : Nat
  day : Nat
deriving DecidableEq

/-- `datetime.date` ordering: lexicographic on (year, month, day). -/
def dateLt (a b : PyDate) : Bool :=
  decide (a.year < b.year) ||
    (decide (a.year = b.year) &&
      (decide (a.month < b.month) ||
        (decide (a.month = b.month) && decide (a.day < b.day))))

/-- A persisted `Regatta` row (`app/models.py`, lines 47-58), restricted to
the columns the import pipeline reads or writes. -/
structure Regatta where
  id : Nat
  name : String
  boat_class : String
  location : String
  location_url : Option String
  start_date : PyDate
  end_date : Option PyDate
  notes : Option String
  created_by : Nat
deriving DecidableEq

/-- ASCII lowercasing, shared model of SQL `lower()` and Python
`str.lower()`. -/
def pyLower (s : String) : String := ⟨s.data.map Char.toLower⟩

/-- `_find_duplicate` (`app/admin/routes.py`, lines 40-45): the first stored
regatta whose lowercased name equals the lowercased candidate name and whose
start date equals the candidate start date exactly.  The stored table is the
input list `db`; the function is a pure read. -/
def _find_duplicate (db : List Regatta) (name : String) (start_date : PyDate) :
    Option Regatta :=
  (db.filter (fun r => pyLower r.name == pyLower name && r.start_date == start_date)).head?

/-- C5: the duplicate detector returns a stored regatta iff some stored
regatta matches the candidate name case-insensitively and the start date
exactly; any returned regatta is such a stored match; and when every
same-named stored regatta has a different start date (for example shifted by
one day) no duplicate is found.  The detector is a pure read: it consumes
the stored table and produces only an optional row. -/
theorem find_duplicate_contract (db : List Regatta) (name : String) (start : PyDate) :
    ((∃ r ∈ db, pyLower r.name = pyLower name ∧ r.start_date = start) ↔
      ∃ r, _find_duplicate db name start = some r) ∧
    (∀ r, _find_duplicate db name start = some r →
      r ∈ db ∧ pyLower r.name = pyLower name ∧ r.start_date = start) ∧
    ((∀ r ∈ db, pyLower r.name = pyLower name → r.start_date ≠ start) →
      _find_duplicate db name start = none) := by
  have key : ∀ r, _find_duplicate db name start = some r →
      r ∈ db ∧ pyLower r.name = pyLower name ∧ r.start_date = start := by
    intro r hr
    unfold _find_duplicate at hr
    have hmem : r ∈ db.filter
        (fun x => pyLower x.name == pyLower name && x.start_date == start) := by
      cases hf : db.filter (fun x => pyLower x.name == pyLower name && x.start_date == start) with
      | nil => rw [hf] at hr; cases hr
      | cons a t =>
        rw [hf] at hr
        rw [List.head?_cons, Option.some.injEq] at hr
        rw [← hr]
        exact List.mem_cons_self a t
    have h2 := List.mem_filter.mp hmem
    have h3 := h2.2
    simp only [Bool.and_eq_true, beq_iff_eq] at h3
    exact ⟨h2.1, h3.1, h3.2⟩
  refine ⟨⟨?_, ?_⟩, key, ?_⟩
  · rintro ⟨r, hr, h1, h2⟩
    have hmem : r ∈ db.filter
        (fun x => pyLower x.name == pyLower name && x.start_date == start) :=
      List.mem_filter.mpr ⟨hr, by simp [h1, h2]⟩
    cases hf : db.filter (fun x => pyLower x.name == pyLower name && x.start_date == start) with
    | nil => rw [hf] at hmem; cases hmem
    | cons a t =>
      refine ⟨a, ?_⟩
      unfold _find_duplicate
      rw [hf]
      rfl
  · rintro ⟨r, hr⟩
    rcases key r hr with ⟨h1, h2, h3⟩
    exact ⟨r, h1, h2, h3⟩
  · intro hnone
    unfold _find_duplicate
    have : db.filter (fun x => pyLower x.name == pyLower name && x.start_date == start) = [] := by
      rw [List.filter_eq_nil_iff]
      intro a ha
      simp only [Bool.and_eq_true, beq_iff_eq, not_and]
      intro h1
      exact hnone a ha h1
    rw [this]
    rfl

/-- Witness for `find_duplicate_contract`: a candidate whose start date is
one day after the only same-named stored regatta is not flagged. -/
theorem find_duplicate_contract_witness :
    _find_duplicate [⟨1, "Spring Regatta", "Thistle", "Port YC", none, ⟨2026, 3, 15⟩, none, none, 1⟩]
        "SPRING REGATTA" ⟨2026, 3, 16⟩ = none :=
  (find_duplicate_contract
      [⟨1, "Spring Regatta", "Thistle", "Port YC", none, ⟨2026, 3, 15⟩, none, none, 1⟩]
      "SPRING REGATTA" ⟨2026, 3, 16⟩).2.2 (by decide)

/-! ### Python string comparison and ISO date rendering -/

/-- Python string `<` (lexicographic by code point) on character lists. -/
def pyCharsLt : List Char → List Char → Bool
  | [], [] => false
  | [], _ :: _ => true
  | _ :: _, [] => false
  | a :: as, b :: bs => if a < b then true else if b < a then false else pyCharsLt as bs

/-- Python string `<`. -/
def pyStrLt (a b : String) : Bool := pyCharsLt a.data b.data

/-- Three-way lexicographic comparison on character lists. -/
def cmpChars : List Char → List Char → Ordering
  | [], [] => .eq
  | [], _ :: _ => .lt
  | _ :: _, [] => .gt
  | a :: as, b :: bs => if a < b then .lt else if b < a then .gt else cmpChars as bs

theorem pyCharsLt_eq_lt_cmp (as bs : List Char) :
    pyCharsLt as bs = (cmpChars as bs == .lt) := by
  induction as generalizing bs with
  | nil => cases bs <;> rfl
  | cons a t ih =>
    cases bs with
    | nil => rfl
    | cons b u =>
      simp only [pyCharsLt, cmpChars]
      by_cases h1 : a < b
      · rw [if_pos h1, if_pos h1]; rfl
      · rw [if_neg h1, if_neg h1]
        by_cases h2 : b < a
        · rw [if_pos h2, if_pos h2]; rfl
        · rw [if_neg h2, if_neg h2]; exact ih u

theorem cmpChars_append (as cs ds : List Char) : ∀ bs : List Char, as.length = bs.length →
    cmpChars (as ++ cs) (bs ++ ds) = (cmpChars as bs).then (cmpChars cs ds) := by
  induction as with
  | nil =>
    intro bs h
    cases bs with
    | nil => rfl
    | cons b u => simp at h
  | cons a t ih =>
    intro bs h
    cases bs with
    | nil => simp at h
    | cons b u =>
      simp only [List.cons_append, cmpChars]
      by_cases h1 : a < b
      · rw [if_pos h1, if_pos h1]; rfl
      · rw [if_neg h1, if_neg h1]
        by_cases h2 : b < a
        · rw [if_pos h2, if_pos h2]; rfl
        · rw [if_neg h2, if_neg h2]
          exact ih u (by simpa using h)

theorem cmpChars_cons_same (c : Char) (x y : List Char) :
    cmpChars (c :: x) (c :: y) = cmpChars x y := by
  simp [cmpChars]

/-- The ASCII character of a decimal digit. -/
def dchar : Nat → Char
  | 0 => '0'
  | 1 => '1'
  | 2 => '2'
  | 3 => '3'
  | 4 => '4'
  | 5 => '5'
  | 6 => '6'
  | 7 => '7'
  | 8 => '8'
  | _ => '9'

/-- Two-digit zero-padded decimal rendering. -/
def pad2 (n : Nat) : List Char := [dchar (n / 10), dchar (n % 10)]

/-- Four-digit zero-padded decimal rendering. -/
def pad4 (n : Nat) : List Char :=
  [dchar (n / 1000), dchar (n / 100 % 10), dchar (n / 10 % 10), dchar (n % 10)]

/-- `date.isoformat()`: `YYYY-MM-DD` with zero padding. -/
def isoDate (d : PyDate) : String :=
  ⟨pad4 d.year ++ '-' :: pad2 d.month ++ '-' :: pad2 d.day⟩

set_option maxRecDepth 40000 in
theorem cmp_pad2 : ∀ m < 100, ∀ n < 100, cmpChars (pad2 m) (pad2 n) = compare m n := by
  decide

theorem pad4_eq_append (n : Nat) : pad4 n = pad2 (n / 100) ++ pad2 (n % 100) := by
  have h1 : n / 100 / 10 = n / 1000 := by
    rw [Nat.div_div_eq_div_mul]
  have h2 : n % 100 / 10 = n / 10 % 10 := by
    have := Nat.mod_mul_right_div_self n 10 10
    norm_num at this
    exact this
  have h3 : n % 100 % 10 = n % 10 := Nat.mod_mod_of_dvd n (by norm_num)
  simp [pad4, pad2, h1, h2, h3]

theorem compare_split100 (n m : Nat) :
    compare n m = (compare (n / 100) (m / 100)).then (compare (n % 100) (m % 100)) := by
  have hn := Nat.div_add_mod n 100
  have hm := Nat.div_add_mod m 100
  have hn2 := Nat.mod_lt n (show 0 < 100 by norm_num)
  have hm2 := Nat.mod_lt m (show 0 < 100 by norm_num)
  rcases Nat.lt_trichotomy (n / 100) (m / 100) with h | h | h
  · rw [Nat.compare_eq_lt.mpr (by omega), Nat.compare_eq_lt.mpr h]
    rfl
  · rw [h, Nat.compare_eq_eq.mpr rfl]
    have heq : compare n m = compare (n % 100) (m % 100) := by
      rcases Nat.lt_trichotomy (n % 100) (m % 100) with h2 | h2 | h2
      · rw [Nat.compare_eq_lt.mpr (by omega), Nat.compare_eq_lt.mpr h2]
      · rw [Nat.compare_eq_eq.mpr (by omega), Nat.compare_eq_eq.mpr h2]
      · rw [Nat.compare_eq_gt.mpr (by omega), Nat.compare_eq_gt.mpr h2]
    rw [heq]
    rfl
  · rw [Nat.compare_eq_gt.mpr (by omega), Nat.compare_eq_gt.mpr h]
    rfl

theorem cmp_pad4 (m n : Nat) (hm : m < 10000) (hn : n < 10000) :
    cmpChars (pad4 m) (pad4 n) = compare m n := by
  rw [pad4_eq_append m, pad4_eq_append n]
  rw [cmpChars_append (pad2 (m / 100)) (pad2 (m % 100)) (pad2 (n % 100)) (pad2 (n / 100)) rfl]
  rw [cmp_pad2 (m / 100) ((Nat.div_lt_iff_lt_mul (by norm_num)).mpr (by omega))
      (n / 100) ((Nat.div_lt_iff_lt_mul (by norm_num)).mpr (by omega))]
  rw [cmp_pad2 (m % 100) (Nat.mod_lt m (by norm_num)) (n % 100) (Nat.mod_lt n (by norm_num))]
  exact (compare_split100 m n).symm

theorem cmp_isoDate (d1 d2 : PyDate) (h1y : d1.year < 10000) (h2y : d2.year < 10000)
    (h1m : d1.month < 100) (h2m : d2.month < 100) (h1d : d1.day < 100) (h2d : d2.day < 100) :
    cmpChars (isoDate d1).data (isoDate d2).data =
      (compare d1.year d2.year).then
        ((compare d1.month d2.month).then (compare d1.day d2.day)) := by
  show cmpChars (pad4 d1.year ++ '-' :: pad2 d1.month ++ '-' :: pad2 d1.day)
      (pad4 d2.year ++ '-' :: pad2 d2.month ++ '-' :: pad2 d2.day) = _
  rw [List.append_assoc (pad4 d1.year) ('-' :: pad2 d1.month) ('-' :: pad2 d1.day)]
  rw [List.append_assoc (pad4 d2.year) ('-' :: pad2 d2.month) ('-' :: pad2 d2.day)]
  rw [cmpChars_append (pad4 d1.year) (('-' :: pad2 d1.month) ++ ('-' :: pad2 d1.day))
      (('-' :: pad2 d2.month) ++ ('-' :: pad2 d2.day)) (pad4 d2.year) rfl]
  rw [cmpChars_append ('-' :: pad2 d1.month) ('-' :: pad2 d1.day)
      ('-' :: pad2 d2.day) ('-' :: pad2 d2.month) rfl]
  rw [cmpChars_cons_same, cmpChars_cons_same]
  rw [cmp_pad4 _ _ h1y h2y, cmp_pad2 _ h1m _ h2m, cmp_pad2 _ h1d _ h2d]

theorem pyStrLt_isoDate (d1 d2 : PyDate) (h1y : d1.year < 10000) (h2y : d2.year < 10000)
    (h1m : d1.month < 100) (h2m : d2.month < 100) (h1d : d1.day < 100) (h2d : d2.day < 100) :
    pyStrLt (isoDate d1) (isoDate d2) = dateLt d1 d2 := by
  rw [pyStrLt, pyCharsLt_eq_lt_cmp, cmp_isoDate d1 d2 h1y h2y h1m h2m h1d h2d]
  unfold dateLt
  rcases Nat.lt_trichotomy d1.year d2.year with h | h | h
  · rw [Nat.compare_eq_lt.mpr h]
    simp [Ordering.then, h]
    rfl
  · rw [Nat.compare_eq_eq.mpr h]
    rcases Nat.lt_trichotomy d1.month d2.month with h2 | h2 | h2
    · rw [Nat.compare_eq_lt.mpr h2]
      simp [Ordering.then, h, h2]
      rfl
    · rw [Nat.compare_eq_eq.mpr h2]
      rcases Nat.lt_trichotomy d1.day d2.day with h3 | h3 | h3
      · rw [Nat.compare_eq_lt.mpr h3]
        simp [Ordering.then, h, h2, h3]
        rfl
      · rw [Nat.compare_eq_eq.mpr h3]
        simp [Ordering.then, h, h2, h3]
        rfl
      · rw [Nat.compare_eq_gt.mpr h3]
        simp [Ordering.then, h, h2, Nat.lt_asymm h3]
        rfl
    · rw [Nat.compare_eq_gt.mpr h2]
      simp [Ordering.then, h, Nat.lt_asymm h2, (Nat.ne_of_lt h2).symm]
      rfl
  · rw [Nat.compare_eq_gt.mpr h]
    simp [Ordering.then, Nat.lt_asymm h, (Nat.ne_of_lt h).symm]
    rfl

/-! ### Extracted candidate events and the flag-past step -/

/-- The `duplicate_of` payload attached to a candidate
(`app/admin/routes.py`, lines 370-375). -/
structure DupRef where
  id : Nat
  name : String
  location : String
  start_date : String
deriving DecidableEq

/-- An extracted candidate event: the dictionary produced by
`extract_regattas` plus the keys the orchestration may add (`is_past`,
`duplicate_of`).  Missing or null string fields are `none`; `is_past` is
absent (false) until the flag-past step sets it. -/
structure ExEvent where
  name : Option String := none
  boat_class : Option String := none
  location : Option String := none
  location_url : Option String := none
  start_date : Option String := none
  end_date : Option String := none
  notes : Option String := none
  detail_url : Option String := none
  is_past : Bool := false
  duplicate_of : Option DupRef := none
deriving DecidableEq

/-- The flag-past step body (`app/admin/routes.py`, lines 343-345):
`if (r.get("start_date") or "") < today: r["is_past"] = True`. -/
def flagPast (today : String) (e : ExEvent) : ExEvent :=
  if pyStrLt (e.start_date.getD "") today then { e with is_past := true } else e

/-- C10: in the flag-past step, an event whose `start_date` is absent, null,
or the empty string is always flagged past, because the missing date is
treated as the empty string, which compares strictly before today's ISO
date; and an event carrying a valid ISO `start_date` is flagged past exactly
when that date is strictly before today. -/
theorem flag_past_semantics (t : PyDate) (e : ExEvent)
    (ht : 1 ≤ t.year ∧ t.year < 10000 ∧ 1 ≤ t.month ∧ t.month ≤ 12 ∧
      1 ≤ t.day ∧ t.day ≤ 31) :
    ((e.start_date = none ∨ e.start_date = some "") →
      (flagPast (isoDate t) e).is_past = true) ∧
    (∀ d : PyDate,
      (1 ≤ d.year ∧ d.year < 10000 ∧ 1 ≤ d.month ∧ d.month ≤ 12 ∧
        1 ≤ d.day ∧ d.day ≤ 31) →
      e.start_date = some (isoDate d) → e.is_past = false →
      ((flagPast (isoDate t) e).is_past = true ↔ dateLt d t = true)) := by
  constructor
  · intro hsd
    have hgetd : e.start_date.getD "" = "" := by
      rcases hsd with h | h <;> rw [h] <;> rfl
    have hlt : pyStrLt "" (isoDate t) = true := rfl
    unfold flagPast
    rw [hgetd, hlt, if_pos rfl]
  · intro d hd hsd hpast
    have hgetd : e.start_date.getD "" = isoDate d := by rw [hsd]; rfl
    have hlt : pyStrLt (isoDate d) (isoDate t) = dateLt d t :=
      pyStrLt_isoDate d t (by omega) (by omega) (by omega) (by omega) (by omega) (by omega)
    unfold flagPast
    rw [hgetd, hlt]
    cases hcmp : dateLt d t with
    | true => simp
    | false => simp [hpast]

/-- Witness for `flag_past_semantics`: with today 2026-10-12, an event with
no start date is flagged past, and an event dated 2026-03-15 is flagged past
exactly when that date precedes today. -/
theorem flag_past_semantics_witness :
    (flagPast (isoDate ⟨2026, 10, 12⟩) { start_date := none }).is_past = true ∧
    ((flagPast (isoDate ⟨2026, 10, 12⟩)
        { start_date := some (isoDate ⟨2026, 3, 15⟩) }).is_past = true ↔
      dateLt ⟨2026, 3, 15⟩ ⟨2026, 10, 12⟩ = true) :=
  ⟨(flag_past_semantics ⟨2026, 10, 12⟩ { start_date := none } (by norm_num)).1 (Or.inl rfl),
   (flag_past_semantics ⟨2026, 10, 12⟩ { start_date := some (isoDate ⟨2026, 3, 15⟩) }
      (by norm_num)).2 ⟨2026, 3, 15⟩ (by norm_num) rfl rfl⟩

/-! ### Document discovery (`app/admin/routes.py`, lines 643-845) -/

/-- A discovered document entry:
`{"doc_type": ..., "url": ..., "label": ...}` as a struct. -/
structure Doc where
  doc_type : String
  url : String
  label : String
deriving DecidableEq

/-- External effects of the discovery orchestration.  `clubspotDocs` is
`_fetch_clubspot_documents` (a platform API query, not a page fetch; its own
failures already yield `[]`); `fetchDiscover` is the composition
`_fetch_url_content` + `discover_documents`, and `fetchDiscoverDeep` is
`_fetch_url_content` + `discover_documents_deep`, each costing exactly one
page fetch per call.  A deep call that raises is behaviourally identical,
for fetch counting and merging, to one returning `[]` (the exception is
caught per WWW link at lines 802-813), so results are modelled as plain
lists. -/
structure DiscoveryEnv where
  clubspotDocs : String → List Doc
  fetchDiscover : String → List Doc
  fetchDiscoverDeep : String → List Doc

/-- The level-2 loop (`app/admin/routes.py`, lines 748-813): for each WWW
document, unless both NOR and SI are already present (`break`), resolve the
WWW link (via the clubspot API when recognized, else one deep page fetch)
and merge only documents whose type is not already present, updating the
type set.  State: accumulated documents, known type set, page-fetch count. -/
def deepLoop (env : DiscoveryEnv) :
    List Doc → List Doc → List String → Nat → List Doc × List String × Nat
  | [], docs, types, n => (docs, types, n)
  | w :: ws, docs, types, n =>
    if "NOR" ∈ types ∧ "SI" ∈ types then (docs, types, n)
    else
      let (deepDocs, n') :=
        match _parse_clubspot_regatta_id w.url with
        | some i => (env.clubspotDocs i, n)
        | none => (env.fetchDiscoverDeep w.url, n + 1)
      let newDocs := deepDocs.filter (fun d => decide (d.doc_type ∉ types))
      deepLoop env ws (docs ++ newDocs) (types ++ newDocs.map (fun d => d.doc_type)) n'

/-- The shallow documents of a candidate detail URL (`app/admin/routes.py`,
lines 711-725): the clubspot fast path queries the platform API and appends
the page itself as a WWW document; otherwise one page fetch plus shallow
discovery. -/
def shallowDocs (env : DiscoveryEnv) (detail_url : String) : List Doc :=
  match _parse_clubspot_regatta_id detail_url with
  | some i => env.clubspotDocs i ++ [⟨"WWW", detail_url, "Regatta website"⟩]
  | none => env.fetchDiscover detail_url

/-- Per-candidate document discovery (`app/admin/routes.py`, lines 710-813):
shallow pass, then the level-2 loop over the shallow WWW documents (an empty
list when the clubspot fast path was used: `and not cs_id`, line 748).
Returns the candidate's final document list and the number of page fetches
(`_fetch_url_content` calls) performed.  The later per-candidate sort by
`doc_type` (line 828) permutes the list downstream without changing
membership or the fetch count. -/
def discoverCandidate (env : DiscoveryEnv) (detail_url : String) : List Doc × Nat :=
  let cs := _parse_clubspot_regatta_id detail_url
  let docs := shallowDocs env detail_url
  let n0 : Nat := if cs.isSome then 0 else 1
  let wwwDocs := if cs.isSome then [] else docs.filter (fun d => decide (d.doc_type = "WWW"))
  let types := docs.map (fun d => d.doc_type)
  let result := deepLoop env wwwDocs docs types n0
  (result.1, result.2.2)

theorem deepLoop_count (env : DiscoveryEnv) :
    ∀ ws docs types n, (deepLoop env ws docs types n).2.2 ≤ n + ws.length := by
  intro ws
  induction ws with
  | nil =>
    intro docs types n
    simp [deepLoop]
  | cons w ws ih =>
    intro docs types n
    simp only [deepLoop]
    by_cases hbreak : "NOR" ∈ types ∧ "SI" ∈ types
    · rw [if_pos hbreak]
      simp
    · rw [if_neg hbreak]
      cases hcs : _parse_clubspot_regatta_id w.url with
      | some i =>
        simp only [hcs]
        exact le_trans (ih _ _ n) (by simp only [List.length_cons]; omega)
      | none =>
        simp only [hcs]
        exact le_trans (ih _ _ (n + 1)) (by simp only [List.length_cons]; omega)

theorem deepLoop_merge (env : DiscoveryEnv) :
    ∀ ws docs types n types0, types0 ⊆ types →
      ∀ d ∈ (deepLoop env ws docs types n).1, d ∈ docs ∨ d.doc_type ∉ types0 := by
  intro ws
  induction ws with
  | nil =>
    intro docs types n types0 _ d hd
    exact Or.inl (by simpa [deepLoop] using hd)
  | cons w ws ih =>
    intro docs types n types0 hsub d hd
    simp only [deepLoop] at hd
    by_cases hbreak : "NOR" ∈ types ∧ "SI" ∈ types
    · rw [if_pos hbreak] at hd
      exact Or.inl hd
    · rw [if_neg hbreak] at hd
      have key : ∀ (deepDocs : List Doc) (n' : Nat),
          d ∈ (deepLoop env ws
              (docs ++ deepDocs.filter (fun x => decide (x.doc_type ∉ types)))
              (types ++ (deepDocs.filter (fun x => decide (x.doc_type ∉ types))).map
                  (fun x => x.doc_type)) n').1 →
          d ∈ docs ∨ d.doc_type ∉ types0 := by
        intro deepDocs n' hd2
        have hsub2 : types0 ⊆ types ++ (deepDocs.filter
            (fun x => decide (x.doc_type ∉ types))).map (fun x => x.doc_type) :=
          fun x hx => List.mem_append.mpr (Or.inl (hsub hx))
        rcases ih _ _ n' types0 hsub2 d hd2 with h | h
        · rcases List.mem_append.mp h with h2 | h2
          · exact Or.inl h2
          · refine Or.inr ?_
            have h3 := (List.mem_filter.mp h2).2
            simp only [decide_eq_true_eq] at h3
            exact fun hmem => h3 (hsub hmem)
        · exact Or.inr h
      cases hcs : _parse_clubspot_regatta_id w.url with
      | some i => exact key (env.clubspotDocs i) n (by simpa [hcs] using hd)
      | none => exact key (env.fetchDiscoverDeep w.url) (n + 1) (by simpa [hcs] using hd)

/-- C1 (amended): per candidate with a detail URL, the discovery
orchestration performs at most `1 + W` page fetches, where `W` is the number
of WWW-typed documents the shallow pass returns: one shallow fetch plus at
most one deep fetch per discovered WWW link, with the deep loop stopping
early once both NOR and SI are present.  In particular the total is at
most 2 whenever the shallow pass returns at most one WWW document, and the
clubspot fast path performs no page fetch at all.  The original unconditional
bound of 2 fails once the shallow pass returns two or more WWW documents
(see `discovery_fetch_count_exceeds_two`). -/
theorem discovery_fetch_bound (env : DiscoveryEnv) (detail_url : String) :
    (discoverCandidate env detail_url).2 ≤
      1 + ((shallowDocs env detail_url).filter
        (fun d => decide (d.doc_type = "WWW"))).length := by
  unfold discoverCandidate
  cases hcs : _parse_clubspot_regatta_id detail_url with
  | some i =>
    simp only [hcs, Option.isSome_some, if_pos]
    simp [deepLoop]
  | none =>
    simp only [hcs, Option.isSome_none]
    exact le_trans (deepLoop_count env _ _ _ 1) (by simp)

/-- Environment for the fetch-count counterexample: the shallow pass finds
two WWW documents on unrecognized hosts; deep passes find nothing. -/
def envTwoWww : DiscoveryEnv where
  clubspotDocs := fun _ => []
  fetchDiscover := fun u =>
    if u = "http://example.org/detail" then
      [⟨"WWW", "http://example.org/site1", "Regatta website"⟩,
       ⟨"WWW", "http://example.org/site2", "Regatta website"⟩]
    else []
  fetchDiscoverDeep := fun _ => []

/-- C1 counterexample: with a shallow pass returning two WWW documents and
deep passes finding neither NOR nor SI, the orchestration performs three
page fetches for this one candidate (one shallow plus one per WWW link),
exceeding the claimed unconditional bound of two fetches per candidate. -/
theorem discovery_fetch_count_exceeds_two :
    (discoverCandidate envTwoWww "http://example.org/detail").2 = 3 ∧
    ¬ (discoverCandidate envTwoWww "http://example.org/detail").2 ≤ 2 := by
  refine ⟨?_, ?_⟩ <;> decide

/-- C7: every document present after the deep (level-2) pass either came
from the shallow pass or carries a `doc_type` that is not among the shallow
pass's document types: merged deep documents are filtered against the type
set current at merge time, which always contains every shallow type, so the
deep pass never overwrites or duplicates a document type found by the
shallow pass. -/
theorem deep_pass_preserves_types (env : DiscoveryEnv) (detail_url : String) (d : Doc)
    (hd : d ∈ (discoverCandidate env detail_url).1) :
    d ∈ shallowDocs env detail_url ∨
      d.doc_type ∉ (shallowDocs env detail_url).map (fun x => x.doc_type) := by
  unfold discoverCandidate at hd
  cases hcs : _parse_clubspot_regatta_id detail_url with
  | some i =>
    rw [hcs] at hd
    exact Or.inl (by simpa [deepLoop] using hd)
  | none =>
    rw [hcs] at hd
    simp only [Option.isSome_none, Bool.false_eq_true, if_neg] at hd
    exact deepLoop_merge env _ _ _ _ _ (fun x hx => hx) d hd

/-- Environment for the C7 witness: the shallow pass finds one WWW link and
the deep pass finds a NOR there. -/
def envDeepNor : DiscoveryEnv where
  clubspotDocs := fun _ => []
  fetchDiscover := fun _ => [⟨"WWW", "http://example.org/site", "Regatta website"⟩]
  fetchDiscoverDeep := fun _ => [⟨"NOR", "http://example.org/nor.pdf", "Notice of Race"⟩]

/-- Witness for `deep_pass_preserves_types`: the NOR document merged by the
deep pass was not a shallow document and its type was absent shallowly. -/
theorem deep_pass_preserves_types_witness :
    (⟨"NOR", "http://example.org/nor.pdf", "Notice of Race"⟩ : Doc) ∈
        (discoverCandidate envDeepNor "http://example.org/detail").1 ∧
    ((⟨"NOR", "http://example.org/nor.pdf", "Notice of Race"⟩ : Doc) ∈
        shallowDocs envDeepNor "http://example.org/detail" ∨
      (⟨"NOR", "http://example.org/nor.pdf", "Notice of Race"⟩ : Doc).doc_type ∉
        (shallowDocs envDeepNor "http://example.org/detail").map (fun x => x.doc_type)) :=
  ⟨by decide,
   deep_pass_preserves_types envDeepNor "http://example.org/detail" _ (by decide)⟩

/-! ### Held-result stores (`_extraction_results` / `_discovery_results`) -/

/-- Python `dict` lookup on an association list with unique keys. -/
def dictLookup {α : Type} (k : String) : List (String × α) → Option α
  | [] => none
  | (k', v) :: t => if k' = k then some v else dictLookup k t

/-- Python `dict` assignment `store[k] = v`: replace an existing entry or
append a new one. -/
def dictSet {α : Type} (k : String) (v : α) : List (String × α) → List (String × α)
  | [] => [(k, v)]
  | (k', v') :: t => if k' = k then (k, v) :: t else (k', v') :: dictSet k v t

/-- Python `dict.pop(k)`: remove the entry with key `k`. -/
def dictPop {α : Type} (k : String) : List (String × α) → List (String × α)
  | [] => []
  | (k', v') :: t => if k' = k then t else (k', v') :: dictPop k t

/-- Python `k in store` membership. -/
def dictContains {α : Type} (k : String) (s : List (String × α)) : Bool :=
  (dictLookup k s).isSome

/-- The held-result retrieval shared by `import_schedule_preview`
(`app/admin/routes.py`, lines 514-539, over `_extraction_results`) and
`import_schedule_documents` (lines 848-869, over `_discovery_results`):
`if not task_id or task_id not in store:` report "not found or expired"
(modelled as `none`) leaving the store unchanged; otherwise
`store.pop(task_id)` and render the data. -/
def retrieveHeld {α : Type} (store : List (String × α)) (task_id : String) :
    Option α × List (String × α) :=
  if task_id == "" || !(dictContains task_id store) then (none, store)
  else (dictLookup task_id store, dictPop task_id store)

theorem dictLookup_set_self {α : Type} (k : String) (v : α) (s : List (String × α)) :
    dictLookup k (dictSet k v s) = some v := by
  induction s with
  | nil => simp [dictSet, dictLookup]
  | cons p t ih =>
    obtain ⟨k', v'⟩ := p
    by_cases hk : k' = k
    · simp [dictSet, dictLookup, hk]
    · simp [dictSet, dictLookup, hk, ih]

theorem dictPop_set_fresh {α : Type} (k : String) (v : α) (s : List (String × α))
    (h : dictLookup k s = none) : dictPop k (dictSet k v s) = s := by
  induction s with
  | nil => simp [dictSet, dictPop]
  | cons p t ih =>
    obtain ⟨k', v'⟩ := p
    by_cases hk : k' = k
    · rw [dictLookup, if_pos hk] at h
      cases h
    · rw [dictLookup, if_neg hk] at h
      simp only [dictSet, if_neg hk, dictPop, ih h]

/-- C8: held results are read-once.  Storing candidates under a fresh,
nonempty token and then retrieving with that token yields the stored value
and restores the store to its prior state (the entry is removed); a second
retrieval with the same token -- or any retrieval with a token that was
never issued -- reports "not found or expired" (`none`) and leaves the
store unchanged. -/
theorem held_results_read_once {α : Type} (store : List (String × α)) (k : String) (v : α)
    (hfresh : dictLookup k store = none) (hk : k ≠ "") :
    retrieveHeld (dictSet k v store) k = (some v, store) ∧
    retrieveHeld store k = (none, store) := by
  constructor
  · have hc : dictContains k (dictSet k v store) = true := by
      unfold dictContains
      rw [dictLookup_set_self]
      rfl
    simp [retrieveHeld, hc, hk, dictLookup_set_self, dictPop_set_fresh k v store hfresh]
  · have hc : dictContains k store = false := by
      unfold dictContains
      rw [hfresh]
      rfl
    simp [retrieveHeld, hc]

/-- Witness for `held_results_read_once`: a fresh token on an empty store. -/
theorem held_results_read_once_witness :
    retrieveHeld (dictSet "token-1" (5 : Nat) []) "token-1" = (some 5, []) ∧
    retrieveHeld ([] : List (String × Nat)) "token-1" = (none, []) :=
  held_results_read_once [] "token-1" 5 rfl (by decide)

/-! ### Extraction orchestration (`import_schedule_extract`, lines 283-403)
and confirmation (`import_schedule_confirm`, lines 542-640) -/

/-- A persisted `Document` row (`app/models.py`, lines 80-89), restricted to
the columns the confirmation step writes. -/
structure StoredDoc where
  regatta_id : Nat
  doc_type : String
  url : String
  uploaded_by : Nat
deriving DecidableEq

/-- The persisted tables the import pipeline touches. -/
structure Database where
  regattas : List Regatta
  documents : List StoredDoc
deriving DecidableEq

/-- External effects of the extraction orchestration: `fetchUrl` is
`_fetch_url_content` (`.error` models `ValueError` / `RequestException`),
`extract` is `extract_regattas` (`.error` models `ValueError` /
`ConnectionError`), and `parseIso` is `date.fromisoformat` (`none` models a
`ValueError`). -/
structure ExtractEnv where
  fetchUrl : String → Except String String
  extract : String → Nat → Except String (List ExEvent)
  parseIso : String → Option PyDate

inductive ExtractOutcome where
  | failed (msg : String)
  | crashed
  | done (task_id : String) (summary : String)
deriving DecidableEq

/-- The duplicate-check loop (`app/admin/routes.py`, lines 362-375): for
each event whose name and start date are truthy, parse the start date (an
unparseable date raises out of the generator: `none`) and attach a
`duplicate_of` payload when `_find_duplicate` matches; also counts the
duplicates found. -/
def dupCheck (db : List Regatta) (parseIso : String → Option PyDate) :
    List ExEvent → Option (List ExEvent × Nat)
  | [] => some ([], 0)
  | e :: es =>
    if (e.name.getD "") ≠ "" ∧ (e.start_date.getD "") ≠ "" then
      match parseIso (e.start_date.getD "") with
      | none => none
      | some d =>
        match dupCheck db parseIso es with
        | none => none
        | some (es', c) =>
          match _find_duplicate db (e.name.getD "") d with
          | some ex =>
            let ref : DupRef := ⟨ex.id, ex.name, ex.location, isoDate ex.start_date⟩
            some ({ e with duplicate_of := some ref } :: es', c + 1)
          | none => some (e :: es', c)
    else
      match dupCheck db parseIso es with
      | none => none
      | some (es', c) => some (e :: es', c)

/-- The body of `import_schedule_extract`'s `generate()`
(`app/admin/routes.py`, lines 300-394), with the persisted database and the
held-result store threaded explicitly: fetch the URL when given (else use
the pasted text), fail on empty content, extract, backfill `detail_url` for
a single extracted event, flag past events, fail when no events remain,
attach duplicate references (crashing like the source on an unparseable
start date), and finally store the candidates under the task token and
report `done`. -/
def import_schedule_extract_run (env : ExtractEnv) (db : Database)
    (store : List (String × (List ExEvent × Nat)))
    (schedule_text schedule_url : String) (year : Nat) (today : PyDate)
    (task_id : String) :
    ExtractOutcome × Database × List (String × (List ExEvent × Nat)) :=
  let fetched : Except String String :=
    if schedule_url ≠ "" then env.fetchUrl schedule_url else .ok schedule_text
  match fetched with
  | .error e => (.failed ("Could not fetch URL: " ++ e), db, store)
  | .ok content =>
    if content = "" then (.failed "No content to process.", db, store)
    else
      match env.extract content year with
      | .error e => (.failed e, db, store)
      | .ok regattas0 =>
        let regattas1 :=
          match regattas0 with
          | [r] =>
            if schedule_url ≠ "" ∧ (r.detail_url.getD "") = "" then
              [{ r with detail_url := some schedule_url }]
            else [r]
          | _ => regattas0
        let regattas2 := regattas1.map (flagPast (isoDate today))
        let past_count := (regattas1.filter
            (fun r => pyStrLt (r.start_date.getD "") (isoDate today))).length
        if regattas2 = [] then (.failed "No regattas found.", db, store)
        else
          match dupCheck db.regattas env.parseIso regattas2 with
          | none => (.crashed, db, store)
          | some (regattas3, _) =>
            let summary := "Found " ++ toString regattas2.length ++ " regatta(s)" ++
              (if past_count ≠ 0 then
                " (" ++ toString (regattas2.length - past_count) ++ " upcoming, " ++
                  toString past_count ++ " past)"
              else "")
            (.done task_id summary, db, dictSet task_id (regattas3, year) store)

/-- External helpers of the confirmation step: `parseIso` is
`date.fromisoformat`, `parseNat` is `int(...)` (`none` models a
`ValueError`, mapped to 0 by the source), `quotePlus` is
`urllib.parse.quote_plus`. -/
structure ConfirmEnv where
  parseIso : String → Option PyDate
  parseNat : String → Option Nat
  quotePlus : String → String

/-- The document sub-loop of one confirmation row (`app/admin/routes.py`,
lines 612-628): for each `d_idx` below `doc_count`, skip unchecked boxes
(missing or falsy checkbox) and create a document when both type and URL are
nonempty. -/
def confirmDocsAux (form : String → String) (checkbox : String → Option String)
    (uid : Nat) (idx : String) (rid : Nat) : Nat → Nat → List StoredDoc
  | _, 0 => []
  | d_idx, remaining + 1 =>
    let rest := confirmDocsAux form checkbox uid idx rid (d_idx + 1) remaining
    match checkbox ("doc_" ++ idx ++ "_" ++ toString d_idx) with
    | none => rest
    | some cv =>
      if cv = "" then rest
      else
        let dt := pyStrip (form ("doc_type_" ++ idx ++ "_" ++ toString d_idx))
        let du := pyStrip (form ("doc_url_" ++ idx ++ "_" ++ toString d_idx))
        if dt ≠ "" ∧ du ≠ "" then ⟨rid, dt, du, uid⟩ :: rest else rest

/-- Running state of the confirmation loop: the database plus the id
sequence and the reported counters. -/
structure ConfirmState where
  db : Database
  nextId : Nat
  created : Nat
  skipped : Nat
  docs_created : Nat
deriving DecidableEq

/-- The validation of one selected confirmation row
(`app/admin/routes.py`, lines 558-590): returns the regatta to create plus
its documents, or `none` when the row is skipped (missing name or start
date, unparseable dates, end before start, or duplicate).  The duplicate
check runs against the state's current table, which (through session
autoflush) includes rows created earlier in the same confirmation. -/
def confirmRowAction (cenv : ConfirmEnv) (form : String → String)
    (checkbox : String → Option String) (uid : Nat) (st : ConfirmState)
    (idx : String) : Option (Regatta × List StoredDoc) :=
  let name := pyStrip (form ("name_" ++ idx))
  let boat_class0 := pyStrip (form ("boat_class_" ++ idx))
  let boat_class := if boat_class0 = "" then "TBD" else boat_class0
  let location := pyStrip (form ("location_" ++ idx))
  let location_url0 := pyStrip (form ("location_url_" ++ idx))
  let start_date_str := pyStrip (form ("start_date_" ++ idx))
  let end_date_str := pyStrip (form ("end_date_" ++ idx))
  let notes := pyStrip (form ("notes_" ++ idx))
  if name = "" ∨ start_date_str = "" then none
  else
    match cenv.parseIso start_date_str with
    | none => none
    | some start_date =>
      let end_parse : Option (Option PyDate) :=
        if end_date_str = "" then some none
        else
          match cenv.parseIso end_date_str with
          | none => none
          | some e => some (some e)
      match end_parse with
      | none => none
      | some end_date =>
        if (match end_date with | some e => dateLt e start_date | none => false) = true then
          none
        else if (_find_duplicate st.db.regattas name start_date).isSome then none
        else
          let location_url :=
            if location_url0 = "" ∧ location ≠ "" then
              "https://www.google.com/maps/search/" ++ cenv.quotePlus location
            else location_url0
          let rid := st.nextId
          let regatta : Regatta :=
            ⟨rid, name, boat_class, (if location = "" then "TBD" else location),
              (if location_url = "" then none else some location_url),
              start_date, end_date, (if notes = "" then none else some notes), uid⟩
          let doc_count := (cenv.parseNat (form ("doc_count_" ++ idx))).getD 0
          some (regatta, confirmDocsAux form checkbox uid idx rid 0 doc_count)

/-- One iteration of the confirmation loop: skip (counting it) or append
the new regatta and its documents. -/
def confirmStep (cenv : ConfirmEnv) (form : String → String)
    (checkbox : String → Option String) (uid : Nat) (st : ConfirmState)
    (idx : String) : ConfirmState :=
  match confirmRowAction cenv form checkbox uid st idx with
  | none => { st with skipped := st.skipped + 1 }
  | some (regatta, newDocs) =>
    { db := { regattas := st.db.regattas ++ [regatta],
              documents := st.db.documents ++ newDocs },
      nextId := st.nextId + 1,
      created := st.created + 1,
      skipped := st.skipped,
      docs_created := st.docs_created + newDocs.length }

/-- `import_schedule_confirm` (`app/admin/routes.py`, lines 542-640) over
the selected indices; on an empty selection the source redirects without
touching the database, which the fold reproduces. -/
def import_schedule_confirm_run (cenv : ConfirmEnv) (form : String → String)
    (checkbox : String → Option String) (uid : Nat) (db : Database) (nextId : Nat)
    (selected : List String) : ConfirmState :=
  selected.foldl (confirmStep cenv form checkbox uid) ⟨db, nextId, 0, 0, 0⟩

theorem confirmStep_extends (cenv : ConfirmEnv) (form : String → String)
    (checkbox : String → Option String) (uid : Nat) (st : ConfirmState) (idx : String) :
    ∃ nr nd, (confirmStep cenv form checkbox uid st idx).db.regattas
        = st.db.regattas ++ nr ∧
      (confirmStep cenv form checkbox uid st idx).db.documents
        = st.db.documents ++ nd := by
  unfold confirmStep
  cases confirmRowAction cenv form checkbox uid st idx with
  | none => exact ⟨[], [], by simp, by simp⟩
  | some p => exact ⟨[p.1], p.2, rfl, rfl⟩

theorem confirm_run_appends (cenv : ConfirmEnv) (form : String → String)
    (checkbox : String → Option String) (uid : Nat) (selected : List String) :
    ∀ st : ConfirmState,
      ∃ nr nd, (selected.foldl (confirmStep cenv form checkbox uid) st).db.regattas
          = st.db.regattas ++ nr ∧
        (selected.foldl (confirmStep cenv form checkbox uid) st).db.documents
          = st.db.documents ++ nd := by
  induction selected with
  | nil => intro st; exact ⟨[], [], by simp, by simp⟩
  | cons idx rest ih =>
    intro st
    rcases confirmStep_extends cenv form checkbox uid st idx with ⟨nr1, nd1, h1, h2⟩
    rcases ih (confirmStep cenv form checkbox uid st idx) with ⟨nr2, nd2, h3, h4⟩
    refine ⟨nr1 ++ nr2, nd1 ++ nd2, ?_, ?_⟩
    · rw [List.foldl_cons, h3, h1, List.append_assoc]
    · rw [List.foldl_cons, h4, h2, List.append_assoc]

/-- C9: the extraction orchestration never creates, updates, or deletes any
persisted Regatta or Document record on any path -- fetch failure, empty
content, extraction failure, no-candidate failure, mid-run crash during the
duplicate check, or success (which only writes to the in-memory held-result
store) -- while the separate confirmation operation, the only writer, only
appends newly created rows, never modifying or removing existing ones. -/
theorem extract_run_persists_nothing (env : ExtractEnv) (cenv : ConfirmEnv) (db : Database)
    (store : List (String × (List ExEvent × Nat))) (schedule_text schedule_url : String)
    (year : Nat) (today : PyDate) (task_id : String) (form : String → String)
    (checkbox : String → Option String) (uid : Nat) (nextId : Nat)
    (selected : List String) :
    (import_schedule_extract_run env db store schedule_text schedule_url year today
        task_id).2.1 = db ∧
    (∃ newRegattas newDocs,
      (import_schedule_confirm_run cenv form checkbox uid db nextId selected).db.regattas
          = db.regattas ++ newRegattas ∧
      (import_schedule_confirm_run cenv form checkbox uid db nextId selected).db.documents
          = db.documents ++ newDocs) := by
  constructor
  · unfold import_schedule_extract_run
    cases hf : (if schedule_url ≠ "" then env.fetchUrl schedule_url else .ok schedule_text) with
    | error e => rfl
    | ok content =>
      by_cases hc : content = ""
      · simp only [if_pos hc]
      · simp only [if_neg hc]
        cases hx : env.extract content year with
        | error e => rfl
        | ok regattas0 =>
          simp only []
          split
          · rfl
          · split
            · rfl
            · rfl
  · exact confirm_run_appends cenv form checkbox uid selected ⟨db, nextId, 0, 0, 0⟩

end RegattaPipeline
